import Mathlib

/-!
Verification of the FluentBitNexusManager update agent core against its
specification.  Each component of the agent is shallowly embedded as an
executable Lean function translated from the C++ source:

* `FileHasherM` — the hash ledger (`FileHasher`: `NormalizePath`,
  `GetStoredFileHash`, `StoreFileHash`, `CheckAndUpdateFileHash`).
* `MonitorM` — the config monitor (`ConfigFileMonitor`: `Initialize`,
  `ShouldRestartService`).
* `PolicyM` — policy interpretation (`DetermineUpdateType`,
  `NeedsFullReinstall`, `ShouldPerformInitialInstall`).
* `SvcMgrM` — the full-reinstall path (`ServiceManager::UpdateService`).
* `RestartM` — the restart-only replacement protocol
  (`ServiceRestartManager::UpdateAndRestartService` and its `rollback`).
* `UpgradeM` — the orchestrators (`UpdateManager::PerformUpdate`,
  `ServiceUpgradeManager::PerformUpgrade`,
  `InitialInstallManager::PerformInitialInstallation`).

File contents are modelled as strings; two files have equal SHA-256 digest
iff their contents are equal (SHA-256 is treated as injective on the
contents that occur in a run, the standard collision-freeness assumption).
Filesystems are partial maps from path strings to contents.  External
collaborator outcomes (network fetch, archive extraction, OS service
control primitives) are supplied as explicit environment values, mirroring
the spec's collaborator interfaces.
-/

namespace FileHasherM

/-- `NormalizePath` (FileHasher.cpp): replaces every maximal run of
backslashes by a single backslash (the C++ uses `std::regex_replace` with
pattern `\\+`).  Character-list version. -/
def collapseBS : List Char → List Char
  | [] => []
  | [c] => [c]
  | c :: d :: rest =>
    if c = '\\' && d = '\\' then collapseBS (d :: rest)
    else c :: collapseBS (d :: rest)

/-- `NormalizePath` on strings. -/
def normalizePath (p : String) : String := String.mk (collapseBS p.data)

/-- The on-disk JSON hash-ledger file: missing, structurally corrupt, or a
valid JSON object mapping normalized paths to stored digests (the
timestamp fields of the C++ records are irrelevant to the claims and are
omitted). -/
inductive LedgerFile where
  | missing : LedgerFile
  | corrupt : LedgerFile
  | valid : (String → Option String) → LedgerFile

/-- Whether the ledger file does not exist (`!fs::exists(m_jsonFilePath)`). -/
def LedgerFile.isMissing : LedgerFile → Bool
  | .missing => true
  | _ => false

/-- `FileHasher::GetStoredFileHash`: normalizes the path, self-heals a
missing or corrupt ledger by resetting it to the empty object, and returns
the stored digest if an entry for the normalized path exists. -/
def getStoredFileHash (led : LedgerFile) (fileDirtyPath : String) :
    LedgerFile × Option String :=
  let filePath := normalizePath fileDirtyPath
  match led with
  | .missing => (.valid fun _ => none, none)
  | .corrupt => (.valid fun _ => none, none)
  | .valid m => (.valid m, m filePath)

/-- `FileHasher::StoreFileHash`: normalizes the path; a missing or corrupt
ledger is re-read as the empty object; the entry for the normalized path
is upserted and the ledger written back. -/
def storeFileHash (led : LedgerFile) (fileDirtyPath hash : String) :
    LedgerFile :=
  let filePath := normalizePath fileDirtyPath
  let m : String → Option String :=
    match led with
    | .missing => fun _ => none
    | .corrupt => fun _ => none
    | .valid m => m
  .valid fun q => if q = filePath then some hash else m q

/-- `FileHasher::CheckAndUpdateFileHash`: compares the digests of the
installed (original) and packaged (new) executables, consulting and
updating the service hash ledger.  `origHash`/`newHash` are `none` when
the file is absent or unreadable (the code's `fs::exists` check and hash
failure both return `false`).  Returns the decision together with the
resulting ledger file. -/
def checkAndUpdateFileHash (origHash newHash : Option String)
    (led : LedgerFile) (originalFilePath : String) : Bool × LedgerFile :=
  match origHash with
  | none => (false, led)
  | some oh =>
    match newHash with
    | none => (false, led)
    | some nh =>
      if oh = nh then
        if led.isMissing then (false, storeFileHash led originalFilePath nh)
        else (false, led)
      else if led.isMissing then (true, storeFileHash led originalFilePath nh)
      else
        let (led₁, stored) := getStoredFileHash led originalFilePath
        match stored with
        | none => (true, storeFileHash led₁ originalFilePath nh)
        | some sh =>
          if sh = nh && oh = sh then (false, led₁)
          else if sh = nh && oh ≠ sh then (true, led₁)
          else (true, storeFileHash led₁ originalFilePath nh)

end FileHasherM

namespace PolicyM

/-- The state of a JSON boolean field as the nlohmann-json checks see it:
absent from the object, present with a non-boolean type, or present with a
boolean value. -/
inductive JsonBoolField where
  | missing : JsonBoolField
  | nonBool : JsonBoolField
  | val : Bool → JsonBoolField
deriving DecidableEq

/-- The state of a JSON policy document on disk: the file does not exist,
exists but cannot be opened, exists but fails to parse as JSON, or parses
to an object whose relevant boolean field is as recorded. -/
inductive PolicyDoc where
  | absent : PolicyDoc
  | unopenable : PolicyDoc
  | malformed : PolicyDoc
  | parsed : JsonBoolField → PolicyDoc
deriving DecidableEq

/-- `UpdateManager::UpdateType`. -/
inductive UpdateType where
  | FULL_REINSTALL : UpdateType
  | RESTART_ONLY : UpdateType
deriving DecidableEq

/-- `UpdateManager::DetermineUpdateType`, reading `upgrade_config.json`:
missing file, unopenable file, JSON parse exception, and a missing or
non-boolean `full_reinstall` field all yield `RESTART_ONLY`; a boolean
`full_reinstall` selects the type. -/
def determineUpdateType (doc : PolicyDoc) : UpdateType :=
  match doc with
  | .absent => .RESTART_ONLY
  | .unopenable => .RESTART_ONLY
  | .malformed => .RESTART_ONLY
  | .parsed f =>
    match f with
    | .val b => if b then .FULL_REINSTALL else .RESTART_ONLY
    | _ => .RESTART_ONLY

/-- `UpdateManager::NeedsFullReinstall`. -/
def needsFullReinstall (doc : PolicyDoc) : Bool :=
  determineUpdateType doc = UpdateType.FULL_REINSTALL

/-- `InitialInstallManager::ShouldPerformInitialInstall`, reading
`install_config.json`.  `allInstalled` is the result of
`AreServicesInstalled()` (true iff every managed service is registered).
A missing document falls back to `!AreServicesInstalled()`; an unopenable
document and a parse exception both return `false`; otherwise the
`enable_initial_install` flag (defaulting to `false` when missing or
non-boolean) decides, except that a disabling flag is overridden when
services are missing. -/
def shouldPerformInitialInstall (doc : PolicyDoc) (allInstalled : Bool) :
    Bool :=
  match doc with
  | .absent => !allInstalled
  | .unopenable => false
  | .malformed => false
  | .parsed f =>
    let enableInstall := match f with
      | .val b => b
      | _ => false
    if !enableInstall && !allInstalled then true
    else enableInstall

end PolicyM

namespace SvcMgrM

/-- Environment of one `ServiceManager::UpdateService` run: what the
service-control capability reports and whether the external
uninstall/install child processes launch.  `stillInstalled` is the result
of the re-check `isServiceInstalled` performed after a successful
uninstall attempt. -/
structure MEnv where
  installedBefore : Bool
  uninstallCmdOk : Bool
  stillInstalled : Bool
  exeExists : Bool
  installCmdOk : Bool

/-- Outcome of `ServiceManager::UpdateService`: the returned boolean, the
number of uninstall attempts issued, and whether the install step was
invoked.  (The trailing hash-recording effects of the C++ do not affect
any of these and are modelled in the orchestrator layer.) -/
structure MOut where
  result : Bool
  uninstallAttempts : Nat
  installInvoked : Bool
deriving DecidableEq

/-- The part of `UpdateService` after the uninstall phase: check the new
executable exists, then run the install command. -/
def installPhase (e : MEnv) (n : Nat) : MOut :=
  if !e.exeExists then ⟨false, n, false⟩
  else if !e.installCmdOk then ⟨false, n, true⟩
  else ⟨true, n, true⟩

/-- `ServiceManager::UpdateService`: if the service is registered,
uninstall it once and abort (without installing) when the uninstall
command fails or the service is still detected as installed; then install
the new executable. -/
def updateService (e : MEnv) : MOut :=
  if e.installedBefore then
    if !e.uninstallCmdOk then ⟨false, 1, false⟩
    else if e.stillInstalled then ⟨false, 1, false⟩
    else installPhase e 1
  else installPhase e 0

end SvcMgrM

namespace MonitorM

/-- One observation of the watched file at a `ShouldRestartService` call:
the file is absent, or present with the given content digest (digest
computation on a present file is modelled as succeeding). -/
inductive Obs where
  | absent : Obs
  | present : String → Obs
deriving DecidableEq

/-- Which signal a `ShouldRestartService` call produced: none, the forced
first-seen signal (the `(!storedHash || storedHash->empty()) &&
m_firstTimeHashStored` branch), or the ordinary changed-hash signal. -/
inductive Signal where
  | none : Signal
  | forced : Signal
  | changed : Signal
deriving DecidableEq

/-- In-memory state of a `ConfigFileMonitor` together with its ledger
entry for the watched path: `stored` is the ledger's digest entry for the
config file (possibly the empty string), `firstTime` is
`m_firstTimeHashStored` and `restartRequired` is `m_restartRequired`. -/
structure MonState where
  stored : Option String
  firstTime : Bool
  restartRequired : Bool
deriving DecidableEq

/-- Constructor plus `ConfigFileMonitor::Initialize`: the member
initializers set `m_restartRequired := false` and
`m_firstTimeHashStored := true`; `Initialize` returns early when the file
does not exist, and otherwise stores the current digest when the ledger
has no entry for the path. -/
def construct (fileAtCtor : Obs) (ledgerEntry : Option String) : MonState :=
  match fileAtCtor with
  | .absent => ⟨ledgerEntry, true, false⟩
  | .present h =>
    match ledgerEntry with
    | none => ⟨some h, true, false⟩
    | some e => ⟨some e, true, false⟩

/-- `ConfigFileMonitor::ShouldRestartService` as a state transition: the
forced branch fires when the stored digest is absent or empty and the
first-time latch is set; the changed branch fires when a stored digest
differs from the current one; either branch stores the current digest. -/
def shouldRestartService (s : MonState) (o : Obs) : MonState × Signal :=
  match o with
  | .absent => (s, .none)
  | .present ch =>
    if (s.stored = none || s.stored = some "") && s.firstTime then
      (⟨some ch, false, true⟩, .forced)
    else
      match s.stored with
      | some sh =>
        if sh ≠ ch then (⟨some ch, s.firstTime, true⟩, .changed)
        else (s, .none)
      | none => (s, .none)

/-- Repeated `ShouldRestartService` calls, collecting the signals. -/
def runCalls (s : MonState) : List Obs → MonState × List Signal
  | [] => (s, [])
  | o :: os =>
    let (s₁, sig) := shouldRestartService s o
    let (s₂, sigs) := runCalls s₁ os
    (s₂, sig :: sigs)

/-- Number of forced first-seen signals in a list of call outcomes. -/
def forcedCount : List Signal → Nat
  | [] => 0
  | .forced :: rest => forcedCount rest + 1
  | _ :: rest => forcedCount rest

end MonitorM

namespace UpgradeM

open FileHasherM PolicyM MonitorM

/-- What `UpdateManager::IsFileUnchanged` sees for one managed executable:
whether the installed file exists, its current digest (`none` when hashing
fails) and the service-ledger entry for it. -/
structure ExeCheck where
  present : Bool
  cur : Option String
  stored : Option String

/-- `UpdateManager::IsFileUnchanged`: false when the file is missing, its
hash cannot be computed, the service hash ledger file does not exist, or
no entry is stored; otherwise true iff the current and stored digests are
equal. -/
def isFileUnchanged (svcJsonExists : Bool) (c : ExeCheck) : Bool :=
  if !c.present then false
  else
    match c.cur with
    | none => false
    | some ch =>
      if !svcJsonExists then false
      else
        match c.stored with
        | none => false
        | some sh => ch = sh

/-- Environment of one `UpdateManager::PerformUpdate` run: URL resolution
and download outcomes, the digest of the downloaded package, the archive
extraction outcome, and the secondary per-executable checks' inputs. -/
structure UEnv where
  urlValid : Bool
  downloadOk : Bool
  zipHash : String
  extractOk : Bool
  svcJsonExists : Bool
  exe1 : ExeCheck
  exe2 : ExeCheck

/-- Result of `UpdateManager::PerformUpdate`: the updated monitor state,
the returned boolean, whether the downloaded ZIP was deleted, and whether
the package was extracted. -/
structure PUResult where
  mon : MonState
  result : Bool
  zipDeleted : Bool
  extracted : Bool

/-- `UpdateManager::PerformUpdate`: resolve URL, download, ask the config
monitor whether the package changed; if not, also check both managed
executables against the service ledger; extract when anything changed
(deleting the ZIP and acknowledging the restart on success), otherwise
delete the ZIP and return false. -/
def performUpdate (env : UEnv) (mon : MonState) : PUResult :=
  if !env.urlValid then ⟨mon, false, false, false⟩
  else if !env.downloadOk then ⟨mon, false, false, false⟩
  else
    let (mon₁, _sig) := shouldRestartService mon (.present env.zipHash)
    let monSays := (shouldRestartService mon (.present env.zipHash)).2 ≠ Signal.none
    let shouldExtract :=
      monSays || !isFileUnchanged env.svcJsonExists env.exe1
              || !isFileUnchanged env.svcJsonExists env.exe2
    if shouldExtract then
      if !env.extractOk then ⟨mon₁, false, false, false⟩
      else ⟨{ mon₁ with restartRequired := false }, true, true, true⟩
    else ⟨mon₁, false, true, false⟩

/-- Which service-replacement primitive `CompareAndUpdateService` invoked
for a service. -/
inductive SvcAction where
  | fullInstall : SvcAction
  | restartOnly : SvcAction
deriving DecidableEq

/-- Per-service environment of `CompareAndUpdateService`: presence of the
packaged and installed executables, their digests (arguments to
`FileHasher::CheckAndUpdateFileHash`; `none` models an unreadable file),
and the outcomes of the two replacement primitives
(`ServiceManager::UpdateService`, modelled in depth by
`SvcMgrM.updateService`, and
`ServiceRestartManager::UpdateAndRestartService`, modelled in depth by
`RestartM.updateAndRestartService`). -/
structure SvcEnv where
  newExeExists : Bool
  targetExists : Bool
  targetPath : String
  targetHash : Option String
  newHash : Option String
  updateServiceResult : Bool
  restartResult : Bool

/-- `ServiceUpgradeManager::CompareAndUpdateService`: skip when the
packaged executable is missing; when the installed executable is missing,
reinstall if the policy allows it and otherwise log an error and return
`true`; otherwise run the hash comparison and, on a change, the
full-reinstall or restart-only replacement per the policy flag.  Returns
the boolean fed into `updatePerformed`, the primitive invoked (if any) and
the resulting service hash ledger. -/
def compareAndUpdateService (fullReinstall : Bool) (e : SvcEnv)
    (led : LedgerFile) : Bool × Option SvcAction × LedgerFile :=
  if !e.newExeExists then (false, none, led)
  else if !e.targetExists then
    if fullReinstall then (e.updateServiceResult, some .fullInstall, led)
    else (true, none, led)
  else
    let (changed, led₁) :=
      checkAndUpdateFileHash e.targetHash e.newHash led e.targetPath
    if !changed then (false, none, led₁)
    else if fullReinstall then (e.updateServiceResult, some .fullInstall, led₁)
    else (e.restartResult, some .restartOnly, led₁)

/-- The per-service loop of `PerformUpgrade`, threading the service hash
ledger and collecting each service's boolean and invoked primitive. -/
def runServices (fullReinstall : Bool) (led : LedgerFile) :
    List SvcEnv → List (Bool × Option SvcAction) × LedgerFile
  | [] => ([], led)
  | e :: es =>
    let (b, act, led₁) := compareAndUpdateService fullReinstall e led
    let (rest, led₂) := runServices fullReinstall led₁ es
    ((b, act) :: rest, led₂)

/-- Result of `ServiceUpgradeManager::PerformUpgrade`: the final monitor
state, the returned boolean, whether the ZIP was deleted, the replacement
primitives invoked (in order), whether the extraction workspace was
cleaned, and the final service hash ledger. -/
structure PGResult where
  mon : MonState
  result : Bool
  zipDeleted : Bool
  actions : List SvcAction
  cleaned : Bool
  svcLedger : LedgerFile

/-- `ServiceUpgradeManager::PerformUpgrade`: run `PerformUpdate`; on
false, return false touching nothing; otherwise resolve the upgrade
policy's full-reinstall flag and run `CompareAndUpdateService` for each
managed service, cleaning the extraction workspace iff some service
reported an update. -/
def performUpgrade (env : UEnv) (mon : MonState) (doc : PolicyDoc)
    (svcs : List SvcEnv) (led : LedgerFile) : PGResult :=
  let u := performUpdate env mon
  if !u.result then ⟨u.mon, false, u.zipDeleted, [], false, led⟩
  else
    let fr := needsFullReinstall doc
    let (rs, led₁) := runServices fr led svcs
    let updatePerformed := rs.any (·.1)
    ⟨u.mon, updatePerformed, u.zipDeleted, rs.filterMap (·.2),
      updatePerformed, led₁⟩

/-- Environment of `InitialInstallManager::PerformInitialInstallation`:
the outcome of `UpdateManager::PerformInitialInstallation`
(download-and-extract), the install policy document, the service presence
check, and the outcome of `InstallServiceIfNeeded` for each managed
service (true iff that service was actually installed). -/
structure IEnv where
  updateOk : Bool
  doc : PolicyDoc
  allInstalled : Bool
  installResults : List Bool

/-- `InitialInstallManager::PerformInitialInstallation`: abort when the
package could not be downloaded/extracted; when
`ShouldPerformInitialInstall` declines, clean the extraction workspace and
return false; otherwise install each service and clean the workspace iff
at least one installation happened.  Returns (result, cleaned). -/
def performInitialInstallation (e : IEnv) : Bool × Bool :=
  if !e.updateOk then (false, false)
  else if !(shouldPerformInitialInstall e.doc e.allInstalled) then
    (false, true)
  else
    let installationPerformed := e.installResults.any id
    (installationPerformed, installationPerformed)

end UpgradeM

namespace RestartM

/-- A filesystem: partial map from path strings to file contents. -/
def FS := String → Option String

/-- Write a file (`fs::copy` destination effect). -/
def fsSet (fs : FS) (p c : String) : FS :=
  fun q => if q = p then some c else fs q

/-- Delete a file (`fs::remove`). -/
def fsRemove (fs : FS) (p : String) : FS :=
  fun q => if q = p then none else fs q

/-- `fs::copy(src, dst, overwrite_existing)` on regular files: throws
(returns `none`) when the source does not exist or when source and
destination are the same file; otherwise writes the source's content to
the destination. -/
def fsCopy (fs : FS) (src dst : String) : Option FS :=
  match fs src with
  | none => none
  | some c => if src = dst then none else some (fsSet fs dst c)

/-- `std::filesystem::path::filename()` for backslash-separated paths:
the suffix after the last backslash. -/
def filenameOf (p : String) : String :=
  String.mk ((p.data.reverse.takeWhile (fun c => c ≠ '\\')).reverse)

/-- Configuration of a `ServiceRestartManager`: the constructor arguments
(the packaged executable and the installed target) and the
`UpgradePathManager::GetBackupPath()` directory (which already carries its
trailing separator). -/
structure RCfg where
  newFilePath : String
  targetPath : String
  backupDir : String

/-- Environment of one `UpdateAndRestartService` run: whether the stop
request takes effect within its retry budget, whether either copy throws,
and which executable contents the OS can actually start (`startsOk c` is
whether a start request on a service whose binary has content `c` leaves
it running — the bounded start-retry loops poll this same outcome). -/
structure REnv where
  stopOk : Bool
  backupCopyThrows : Bool
  replaceCopyThrows : Bool
  startsOk : String → Bool

/-- Observable state of the managed service and its files. -/
structure RState where
  fs : FS
  running : Bool
  installed : Bool

/-- `ServiceRestartManager::rollback`: recomputes the backup path as
backup directory + target filename (without the `.bak` collision suffix
`UpdateAndRestartService` may have applied), stops the service when it had
been running, copies the backup back over the target — a copy failure is
caught and skips the restart — and finally restarts and re-verifies with
the shorter retry budget. -/
def rollback (cfg : RCfg) (env : REnv) (wasServiceRunning : Bool)
    (s : RState) : RState :=
  let backupPath := cfg.backupDir ++ filenameOf cfg.targetPath
  let s₁ := if wasServiceRunning then { s with running := false } else s
  match s₁.fs backupPath with
  | none => s₁
  | some c =>
    match fsCopy s₁.fs backupPath cfg.targetPath with
    | none => s₁
    | some fs₂ =>
      let s₂ := { s₁ with fs := fs₂ }
      if wasServiceRunning then { s₂ with running := env.startsOk c }
      else s₂

/-- `ServiceRestartManager::UpdateAndRestartService`: abort when the
service is not installed or the packaged executable is missing; stop the
service if running (a stop that does not take effect within the retry
budget aborts with no filesystem change); back up the installed
executable when it exists, appending `.bak` when the computed backup path
collides with the target; copy the new executable over the target
(rolling back on a throw or on a failed post-copy existence check); start
the service with a bounded retry budget, deleting the backup on success
and rolling back on failure. -/
def updateAndRestartService (cfg : RCfg) (env : REnv) (s : RState) :
    RState × Bool :=
  if !s.installed then (s, false)
  else
    match s.fs cfg.newFilePath with
    | none => (s, false)
    | some _ =>
      let wasServiceRunning := s.running
      if wasServiceRunning && !env.stopOk then (s, false)
      else
        let s₁ : RState := { s with running := false }
        let bp₀ := cfg.backupDir ++ filenameOf cfg.targetPath
        let backupPath :=
          if bp₀ = cfg.targetPath then cfg.targetPath ++ ".bak" else bp₀
        let backupStep : Option RState :=
          match s₁.fs cfg.targetPath with
          | some c =>
            if env.backupCopyThrows then none
            else some { s₁ with fs := fsSet s₁.fs backupPath c }
          | none => some s₁
        match backupStep with
        | none => (s₁, false)
        | some s₂ =>
          let replaced : Option FS :=
            if env.replaceCopyThrows then none
            else fsCopy s₂.fs cfg.newFilePath cfg.targetPath
          match replaced with
          | none => (rollback cfg env wasServiceRunning s₂, false)
          | some fs₃ =>
            let s₃ : RState := { s₂ with fs := fs₃ }
            match s₃.fs cfg.targetPath with
            | none => (rollback cfg env wasServiceRunning s₃, false)
            | some tc =>
              if env.startsOk tc then
                let fs₄ :=
                  if (s₃.fs backupPath).isSome then fsRemove s₃.fs backupPath
                  else s₃.fs
                ({ s₃ with fs := fs₄, running := true }, true)
              else (rollback cfg env wasServiceRunning s₃, false)

end RestartM

namespace RestartM

/-- Concrete collision configuration: with an empty backup directory the
computed backup path `backupDir ++ filename(target)` equals the target
path itself. -/
def cexCfg : RCfg := ⟨"new.exe", "t.exe", ""⟩

/-- Environment in which the new executable's content cannot be started
(the start-retry budget is exhausted) but the old one can. -/
def cexEnv : REnv := ⟨true, false, false, fun c => c == "OLD"⟩

/-- Initial state: service installed and running, old executable at the
target, new executable staged. -/
def cexS : RState :=
  ⟨fun p => if p = "new.exe" then some "NEW"
    else if p = "t.exe" then some "OLD" else none, true, true⟩

end RestartM

open FileHasherM PolicyM MonitorM SvcMgrM UpgradeM RestartM

/-- C5: `DetermineUpdateType` resolves an absent upgrade policy document
to restart-only (`full_reinstall = false`), and an unopenable document, an
unparsable document, and a document whose `full_reinstall` field is
missing or non-boolean all resolve identically to the absent case;
`NeedsFullReinstall` is accordingly false in every such case. -/
theorem determineUpdateType_defaults :
    determineUpdateType .absent = .RESTART_ONLY ∧
    determineUpdateType .unopenable = determineUpdateType .absent ∧
    determineUpdateType .malformed = determineUpdateType .absent ∧
    determineUpdateType (.parsed .missing) = determineUpdateType .absent ∧
    determineUpdateType (.parsed .nonBool) = determineUpdateType .absent ∧
    needsFullReinstall .absent = false ∧
    needsFullReinstall .unopenable = false ∧
    needsFullReinstall .malformed = false ∧
    needsFullReinstall (.parsed .missing) = false ∧
    needsFullReinstall (.parsed .nonBool) = false := by
  decide

/-- C4 counterexample: with not all services installed, an unparsable (or
unopenable) `install_config.json` makes `ShouldPerformInitialInstall`
return `false`, while the documented absent-document default at the same
service presence is `true` — so an I/O or parse error is not mapped to
the absent-document default. -/
theorem shouldPerformInitialInstall_error_not_default :
    shouldPerformInitialInstall .malformed false = false ∧
    shouldPerformInitialInstall .unopenable false = false ∧
    shouldPerformInitialInstall .absent false = true := by
  decide

/-- C4 amended: `ShouldPerformInitialInstall` is a total function that
never fails its caller; an absent document yields the documented default
(install iff not all managed services are installed), but an unopenable
or unparsable document yields `false` (skip installation) regardless of
service presence — which coincides with the absent-document default only
when all services are installed. -/
theorem shouldPerformInitialInstall_total_defaults :
    (∀ inst : Bool, shouldPerformInitialInstall .absent inst = !inst) ∧
    (∀ inst : Bool, shouldPerformInitialInstall .unopenable inst = false) ∧
    (∀ inst : Bool, shouldPerformInitialInstall .malformed inst = false) := by
  refine ⟨?_, ?_, ?_⟩ <;> intro inst <;> cases inst <;> rfl

/-- C9: in every `ServiceManager::UpdateService` run the uninstall step is
attempted at most once, and whenever the service was registered and is
still detected as installed after the uninstall attempt, the run returns
`false` without ever invoking the install step. -/
theorem updateService_no_duplicate_install (e : MEnv)
    (h₁ : e.installedBefore = true) (h₂ : e.stillInstalled = true) :
    (∀ e' : MEnv, (updateService e').uninstallAttempts ≤ 1) ∧
    (updateService e).result = false ∧
    (updateService e).installInvoked = false := by
  refine ⟨?_, ?_⟩
  · intro e'
    rcases e' with ⟨i, u, st, x, c⟩
    cases i <;> cases u <;> cases st <;> cases x <;> cases c <;>
      simp [updateService, installPhase]
  · rcases e with ⟨i, u, st, x, c⟩
    cases h₁
    cases h₂
    cases u <;> simp [updateService, installPhase]

/-- C9 witness: the theorem applied to the concrete environment where the
service is registered, the uninstall command launches, and the service is
still detected afterwards. -/
theorem updateService_no_duplicate_install_witness :
    (∀ e' : MEnv, (updateService e').uninstallAttempts ≤ 1) ∧
    (updateService ⟨true, true, true, true, true⟩).result = false ∧
    (updateService ⟨true, true, true, true, true⟩).installInvoked = false :=
  updateService_no_duplicate_install ⟨true, true, true, true, true⟩ rfl rfl

/-- C10: whenever the installed and packaged executables both exist and
hash successfully to the same digest, `CheckAndUpdateFileHash` returns
`false` (no update) no matter what digest the ledger stores for the
installed path; when the ledger file is missing it is created as a side
effect. -/
theorem checkAndUpdateFileHash_equal_no_update (d : String)
    (led : LedgerFile) (p : String) :
    (checkAndUpdateFileHash (some d) (some d) led p).1 = false ∧
    ((checkAndUpdateFileHash (some d) (some d) LedgerFile.missing p).2).isMissing
      = false := by
  constructor
  · cases led <;> simp [checkAndUpdateFileHash, LedgerFile.isMissing]
  · simp [checkAndUpdateFileHash, LedgerFile.isMissing, storeFileHash]

/-- C8 counterexample: a pass in which the package was downloaded and
extracted but `install_config.json` disables installation (all services
already installed) installs nothing and returns `false`, yet the
extraction workspace is cleaned — so cleanup is not restricted to
non-empty results. -/
theorem performInitialInstallation_cleans_on_skip :
    performInitialInstallation ⟨true, .parsed (.val false), true, []⟩
      = (false, true) := by
  decide

/-- C8 amended: `PerformInitialInstallation` returns `true` iff the
package pipeline succeeded, the install policy allowed installation, and
at least one managed service was actually installed; the extraction
workspace is cleaned exactly when the pipeline succeeded and either the
policy check declined (skip) or at least one service was installed — in
particular the workspace is preserved when installation proceeded but no
service was installed. -/
theorem performInitialInstallation_result_cleanup (e : IEnv) :
    (performInitialInstallation e).1 =
      (e.updateOk && shouldPerformInitialInstall e.doc e.allInstalled
        && e.installResults.any id) ∧
    (performInitialInstallation e).2 =
      (e.updateOk && (!(shouldPerformInitialInstall e.doc e.allInstalled)
        || e.installResults.any id)) := by
  rcases e with ⟨u, doc, inst, rs⟩
  cases u <;>
    cases h : shouldPerformInitialInstall doc inst <;>
      simp [performInitialInstallation, h]

/-- C2 (code bug): when the packaged executable is present, the installed
executable is missing, and the policy's full-reinstall flag is off,
`CompareAndUpdateService` invokes no replacement primitive yet returns
`true`, so `PerformUpgrade` counts the service as updated, reports the
pass as successful, and cleans the extraction workspace — instead of
reporting the service as a failed update as the spec requires. -/
theorem compareAndUpdateService_missing_target_counted_as_updated :
    (compareAndUpdateService false
      ⟨true, false, "t.exe", none, none, false, false⟩
      (.valid fun _ => none)).1 = true ∧
    (compareAndUpdateService false
      ⟨true, false, "t.exe", none, none, false, false⟩
      (.valid fun _ => none)).2.1 = none ∧
    (performUpgrade
      ⟨true, true, "zh", true, true, ⟨true, some "c", some "c"⟩,
        ⟨true, some "c", some "c"⟩⟩
      (construct .absent none) .absent
      [⟨true, false, "t.exe", none, none, false, false⟩]
      (.valid fun _ => none)).result = true ∧
    (performUpgrade
      ⟨true, true, "zh", true, true, ⟨true, some "c", some "c"⟩,
        ⟨true, some "c", some "c"⟩⟩
      (construct .absent none) .absent
      [⟨true, false, "t.exe", none, none, false, false⟩]
      (.valid fun _ => none)).actions = [] ∧
    (performUpgrade
      ⟨true, true, "zh", true, true, ⟨true, some "c", some "c"⟩,
        ⟨true, some "c", some "c"⟩⟩
      (construct .absent none) .absent
      [⟨true, false, "t.exe", none, none, false, false⟩]
      (.valid fun _ => none)).cleaned = true := by
  decide

/-- C6 amended: the Hash Ledger key normalization collapses runs of
backslashes (and nothing more), so a digest stored under one path form is
retrieved under any other form with the same normalization — in
particular forms that differ only in redundant repeated backslashes. -/
theorem ledger_roundtrip_normalized (m : String → Option String)
    (p₁ p₂ h : String) (hnorm : normalizePath p₁ = normalizePath p₂) :
    (getStoredFileHash (storeFileHash (.valid m) p₁ h) p₂).2 = some h := by
  simp [getStoredFileHash, storeFileHash, hnorm]

/-- C6 witness: a digest stored under a double-backslash form of a path is
retrieved under the single-backslash form. -/
theorem ledger_roundtrip_normalized_witness :
    normalizePath "C:\\\\dir\\\\app.exe" = normalizePath "C:\\dir\\app.exe" ∧
    (getStoredFileHash
      (storeFileHash (.valid fun _ => none) "C:\\\\dir\\\\app.exe" "d1")
      "C:\\dir\\app.exe").2 = some "d1" :=
  ⟨by decide,
    ledger_roundtrip_normalized (fun _ => none) _ _ "d1" (by decide)⟩

/-- C6 counterexample: two paths differing only in letter case do not
normalize to the same ledger key — a digest stored under the lowercase
drive letter is not retrieved under the uppercase one — and two paths
differing only in separator direction normalize to different keys. -/
theorem ledger_not_case_separator_insensitive :
    (getStoredFileHash
      (storeFileHash (.valid fun _ => none) "c:\\app.exe" "d1")
      "C:\\app.exe").2 = none ∧
    normalizePath "a/b" ≠ normalizePath "a\\b" := by
  decide

/-- Helper: once the first-time latch is off, no call ever produces the
forced signal, and the latch stays off. -/
theorem forcedCount_zero_of_latch_off (s : MonState)
    (h : s.firstTime = false) :
    ∀ os : List Obs, forcedCount (runCalls s os).2 = 0 := by
  intro os
  induction os generalizing s with
  | nil => simp [runCalls, forcedCount]
  | cons o os ih =>
    cases o with
    | absent =>
      simpa [runCalls, shouldRestartService, forcedCount] using ih s h
    | present ch =>
      simp only [runCalls, shouldRestartService, h, Bool.and_false,
        Bool.false_eq_true, if_false]
      cases hs : s.stored with
      | none => simpa [forcedCount] using ih s h
      | some sh =>
        by_cases hne : sh ≠ ch
        · simpa [hne, h, forcedCount] using ih ⟨some ch, false, true⟩ rfl
        · simpa [hne, forcedCount] using ih s h

/-- Helper: the signal list of a run over an appended observation list. -/
theorem runCalls_append_snd (s : MonState) (xs ys : List Obs) :
    (runCalls s (xs ++ ys)).2 =
      (runCalls s xs).2 ++ (runCalls (runCalls s xs).1 ys).2 := by
  induction xs generalizing s with
  | nil => simp [runCalls]
  | cons x xs ih => simp [runCalls, ih]

/-- Helper: forced-signal counts add over appended signal lists. -/
theorem forcedCount_append (xs ys : List Signal) :
    forcedCount (xs ++ ys) = forcedCount xs + forcedCount ys := by
  induction xs with
  | nil => simp [forcedCount]
  | cons x xs ih =>
    cases x with
    | none => simp [forcedCount, ih]
    | forced => simp [forcedCount, ih]; omega
    | changed => simp [forcedCount, ih]

/-- Helper: observing an absent file changes nothing and signals nothing. -/
theorem runCalls_absent (s : MonState) (k : Nat) :
    runCalls s (List.replicate k .absent) =
      (s, List.replicate k Signal.none) := by
  induction k with
  | zero => simp [runCalls]
  | succ k ih => simp [List.replicate, runCalls, shouldRestartService, ih]

/-- Helper: no forced signal among `k` silent outcomes. -/
theorem forcedCount_replicate_none (k : Nat) :
    forcedCount (List.replicate k Signal.none) = 0 := by
  induction k with
  | zero => simp [forcedCount]
  | succ k ih => simp [List.replicate, forcedCount, ih]

/-- Helper: across any sequence of `ShouldRestartService` calls from any
monitor state, the forced first-seen signal fires at most once. -/
theorem forcedCount_le_one (os : List Obs) :
    ∀ s : MonState, forcedCount (runCalls s os).2 ≤ 1 := by
  induction os with
  | nil => intro s; simp [runCalls, forcedCount]
  | cons o os ih =>
    intro s
    by_cases hft : s.firstTime = true
    · cases o with
      | absent =>
        simpa [runCalls, shouldRestartService, forcedCount] using ih s
      | present ch =>
        have hz := forcedCount_zero_of_latch_off ⟨some ch, false, true⟩ rfl os
        cases hs : s.stored with
        | none =>
          simp [runCalls, shouldRestartService, hs, hft, forcedCount, hz]
        | some sh =>
          by_cases hemp : sh = ""
          · subst hemp
            simp [runCalls, shouldRestartService, hs, hft, forcedCount, hz]
          · by_cases hne : sh = ch
            · subst hne
              simpa [runCalls, shouldRestartService, hs, hft, hemp,
                forcedCount] using ih s
            · simpa [runCalls, shouldRestartService, hs, hft, hemp, hne,
                forcedCount] using ih ⟨some ch, s.firstTime, true⟩
    · have hz :=
        forcedCount_zero_of_latch_off s (by simpa using hft) (o :: os)
      simp [hz]

/-- C7 amended: within one process lifetime the forced first-seen
"restart required" signal fires at most once across any sequence of
`ShouldRestartService` calls from any monitor state; and it fires exactly
once in the cold-start scenario where the watched file does not exist at
construction, the ledger has no entry for it, and the file then appears
and is never modified. -/
theorem forced_signal_once_cold_start (led : Option String)
    (hled : led = none) (k n : Nat) (h : String) (s : MonState)
    (os : List Obs) :
    forcedCount (runCalls (construct .absent led)
      (List.replicate k .absent ++
        .present h :: List.replicate n (.present h))).2 = 1 ∧
    forcedCount (runCalls s os).2 ≤ 1 := by
  constructor
  · subst hled
    have hz :=
      forcedCount_zero_of_latch_off ⟨some h, false, true⟩ rfl
        (List.replicate n (.present h))
    simp [runCalls_append_snd, forcedCount_append, runCalls_absent,
      forcedCount_replicate_none, construct, runCalls,
      shouldRestartService, forcedCount, hz]
  · exact forcedCount_le_one os s

/-- C7 witness: the theorem applied with one absent observation followed
by three observations of an unchanged file, and with an arbitrary second
call sequence. -/
theorem forced_signal_once_cold_start_witness :
    forcedCount (runCalls (construct .absent none)
      (List.replicate 1 .absent ++
        .present "a" :: List.replicate 2 (.present "a"))).2 = 1 ∧
    forcedCount (runCalls ⟨none, true, false⟩
      [.present "a", .present "a"]).2 ≤ 1 :=
  forced_signal_once_cold_start none rfl 1 2 "a" ⟨none, true, false⟩
    [.present "a", .present "a"]

/-- C7 counterexample: when the watched file already exists at
construction and the ledger has no entry, `Initialize` pre-stores the
digest, so across repeated `ShouldRestartService` calls on the unmodified
file the forced signal fires zero times — not exactly once as claimed. -/
theorem forced_signal_zero_when_preinitialized :
    forcedCount (runCalls (construct (.present "a") none)
      [.present "a", .present "a"]).2 = 0 ∧
    ¬ forcedCount (runCalls (construct (.present "a") none)
      [.present "a", .present "a"]).2 = 1 := by
  decide

/-- C3: when the downloaded package's digest equals the monitor's stored
digest (the Config Monitor reports no change) and each managed service's
installed executable hashes as unchanged against the service ledger,
`PerformUpdate` returns false, the downloaded ZIP is deleted, and
`PerformUpgrade` returns false touching no service: no replacement
primitive is invoked, the workspace is not cleaned, and both the monitor
state and the service hash ledger are unchanged. -/
theorem performUpgrade_noop_when_unchanged (env : UEnv) (mon : MonState)
    (doc : PolicyM.PolicyDoc) (svcs : List SvcEnv) (led : LedgerFile)
    (zh c₁ c₂ : String)
    (hUrl : env.urlValid = true) (hDl : env.downloadOk = true)
    (hZip : env.zipHash = zh) (hStored : mon.stored = some zh)
    (hne : zh ≠ "") (hJ : env.svcJsonExists = true)
    (h1p : env.exe1.present = true) (h1c : env.exe1.cur = some c₁)
    (h1s : env.exe1.stored = some c₁)
    (h2p : env.exe2.present = true) (h2c : env.exe2.cur = some c₂)
    (h2s : env.exe2.stored = some c₂) :
    (performUpdate env mon).result = false ∧
    (performUpdate env mon).zipDeleted = true ∧
    (performUpdate env mon).extracted = false ∧
    (performUpgrade env mon doc svcs led).mon = mon ∧
    (performUpgrade env mon doc svcs led).result = false ∧
    (performUpgrade env mon doc svcs led).zipDeleted = true ∧
    (performUpgrade env mon doc svcs led).actions = [] ∧
    (performUpgrade env mon doc svcs led).cleaned = false ∧
    (performUpgrade env mon doc svcs led).svcLedger = led := by
  subst hZip
  have hmon : shouldRestartService mon (.present env.zipHash) =
      (mon, Signal.none) := by
    simp [shouldRestartService, hStored, hne]
  have hunch1 : isFileUnchanged env.svcJsonExists env.exe1 = true := by
    simp [isFileUnchanged, h1p, h1c, h1s, hJ]
  have hunch2 : isFileUnchanged env.svcJsonExists env.exe2 = true := by
    simp [isFileUnchanged, h2p, h2c, h2s, hJ]
  have hupd : performUpdate env mon = ⟨mon, false, true, false⟩ := by
    simp [performUpdate, hUrl, hDl, hmon, hunch1, hunch2]
  simp [performUpgrade, hupd]

/-- C3 witness: a concrete unchanged pass — package digest `z` matches
the stored digest and both executables match their ledger entries — is a
no-op that deletes the ZIP. -/
theorem performUpgrade_noop_when_unchanged_witness :
    (performUpdate
      ⟨true, true, "z", true, true, ⟨true, some "c1", some "c1"⟩,
        ⟨true, some "c2", some "c2"⟩⟩ ⟨some "z", true, false⟩).result
      = false ∧
    (performUpdate
      ⟨true, true, "z", true, true, ⟨true, some "c1", some "c1"⟩,
        ⟨true, some "c2", some "c2"⟩⟩ ⟨some "z", true, false⟩).zipDeleted
      = true ∧
    (performUpdate
      ⟨true, true, "z", true, true, ⟨true, some "c1", some "c1"⟩,
        ⟨true, some "c2", some "c2"⟩⟩ ⟨some "z", true, false⟩).extracted
      = false ∧
    (performUpgrade
      ⟨true, true, "z", true, true, ⟨true, some "c1", some "c1"⟩,
        ⟨true, some "c2", some "c2"⟩⟩ ⟨some "z", true, false⟩ .absent []
      LedgerFile.missing).mon = ⟨some "z", true, false⟩ ∧
    (performUpgrade
      ⟨true, true, "z", true, true, ⟨true, some "c1", some "c1"⟩,
        ⟨true, some "c2", some "c2"⟩⟩ ⟨some "z", true, false⟩ .absent []
      LedgerFile.missing).result = false ∧
    (performUpgrade
      ⟨true, true, "z", true, true, ⟨true, some "c1", some "c1"⟩,
        ⟨true, some "c2", some "c2"⟩⟩ ⟨some "z", true, false⟩ .absent []
      LedgerFile.missing).zipDeleted = true ∧
    (performUpgrade
      ⟨true, true, "z", true, true, ⟨true, some "c1", some "c1"⟩,
        ⟨true, some "c2", some "c2"⟩⟩ ⟨some "z", true, false⟩ .absent []
      LedgerFile.missing).actions = [] ∧
    (performUpgrade
      ⟨true, true, "z", true, true, ⟨true, some "c1", some "c1"⟩,
        ⟨true, some "c2", some "c2"⟩⟩ ⟨some "z", true, false⟩ .absent []
      LedgerFile.missing).cleaned = false ∧
    (performUpgrade
      ⟨true, true, "z", true, true, ⟨true, some "c1", some "c1"⟩,
        ⟨true, some "c2", some "c2"⟩⟩ ⟨some "z", true, false⟩ .absent []
      LedgerFile.missing).svcLedger = LedgerFile.missing :=
  performUpgrade_noop_when_unchanged
    ⟨true, true, "z", true, true, ⟨true, some "c1", some "c1"⟩,
      ⟨true, some "c2", some "c2"⟩⟩ ⟨some "z", true, false⟩ .absent []
    LedgerFile.missing "z" "c1" "c2" rfl rfl rfl rfl (by decide) rfl rfl rfl
    rfl rfl rfl rfl

/-- Helper: when the rollback backup path differs from the target path and
holds the pre-pass content, `rollback` restores that content to the
target, and the service ends running according to the pre-pass run flag
and the startability of the restored content. -/
theorem rollback_restores (cfg : RCfg) (env : REnv) (wasRunning : Bool)
    (s : RState) (oldC : String)
    (hne : cfg.backupDir ++ filenameOf cfg.targetPath ≠ cfg.targetPath)
    (hb : s.fs (cfg.backupDir ++ filenameOf cfg.targetPath) = some oldC) :
    (rollback cfg env wasRunning s).fs cfg.targetPath = some oldC ∧
    (rollback cfg env wasRunning s).running =
      (if wasRunning then env.startsOk oldC else s.running) := by
  cases wasRunning <;>
    simp [rollback, hb, fsCopy, hne, fsSet]

/-- C1 amended: in every restart-only replacement whose computed backup
path (backup directory + target filename) does not collide with the
installed target path, if the backup step succeeded (the target existed
and its copy to the backup location did not throw) and the pass then
fails at any later step, rollback restores the installed executable to
its pre-pass content (equal SHA-256 digest), and — assuming the pre-pass
executable is startable, as it was when the service was running — the
service ends running iff it was running before the pass. -/
theorem updateAndRestart_rollback_restores (cfg : RCfg) (env : REnv)
    (s : RState) (oldC newC : String)
    (hInst : s.installed = true)
    (hNew : s.fs cfg.newFilePath = some newC)
    (hTgt : s.fs cfg.targetPath = some oldC)
    (hStop : s.running = true → env.stopOk = true)
    (hStart : s.running = true → env.startsOk oldC = true)
    (hNoColl : cfg.backupDir ++ filenameOf cfg.targetPath ≠ cfg.targetPath)
    (hBk : env.backupCopyThrows = false)
    (hFail : (updateAndRestartService cfg env s).2 = false) :
    (updateAndRestartService cfg env s).1.fs cfg.targetPath = some oldC ∧
    (updateAndRestartService cfg env s).1.running = s.running := by
  have hbset : fsSet s.fs (cfg.backupDir ++ filenameOf cfg.targetPath) oldC
      (cfg.backupDir ++ filenameOf cfg.targetPath) = some oldC := by
    simp [fsSet]
  cases hr : s.running with
  | true =>
    have hso : env.stopOk = true := hStop hr
    have hst : env.startsOk oldC = true := hStart hr
    cases hrc : env.replaceCopyThrows with
    | true =>
      have hroll := rollback_restores cfg env true
        ⟨fsSet s.fs (cfg.backupDir ++ filenameOf cfg.targetPath) oldC,
          false, true⟩ oldC hNoColl hbset
      simp only [updateAndRestartService, hInst, hNew, hTgt, hBk, hr, hso,
        hrc, if_neg hNoColl, Bool.not_true, Bool.and_false,
        Bool.false_eq_true, if_false, Bool.not_false, Bool.and_true]
      simpa [hst, hr] using hroll
    | false =>
      simp only [updateAndRestartService, hInst, hNew, hTgt, hBk, hr, hso,
        hrc, if_neg hNoColl, Bool.not_true, Bool.and_false,
        Bool.false_eq_true, if_false, Bool.not_false, Bool.and_true]
        at hFail ⊢
      rcases hsrc : fsSet s.fs
          (cfg.backupDir ++ filenameOf cfg.targetPath) oldC
          cfg.newFilePath with _ | c'
      · have hcopy : fsCopy
            (fsSet s.fs (cfg.backupDir ++ filenameOf cfg.targetPath) oldC)
            cfg.newFilePath cfg.targetPath = none := by
          simp [fsCopy, hsrc]
        have hroll := rollback_restores cfg env true
          ⟨fsSet s.fs (cfg.backupDir ++ filenameOf cfg.targetPath) oldC,
            false, true⟩ oldC hNoColl hbset
        simp only [hcopy]
        simpa [hst, hr] using hroll
      · by_cases hnt : cfg.newFilePath = cfg.targetPath
        · have hcopy : fsCopy
              (fsSet s.fs (cfg.backupDir ++ filenameOf cfg.targetPath) oldC)
              cfg.newFilePath cfg.targetPath = none := by
            rw [hnt]
            cases hx : fsSet s.fs
                (cfg.backupDir ++ filenameOf cfg.targetPath) oldC
                cfg.targetPath <;> simp [fsCopy, hx]
          have hroll := rollback_restores cfg env true
            ⟨fsSet s.fs (cfg.backupDir ++ filenameOf cfg.targetPath) oldC,
              false, true⟩ oldC hNoColl hbset
          simp only [hcopy]
          simpa [hst, hr] using hroll
        · have hcopy : fsCopy
              (fsSet s.fs (cfg.backupDir ++ filenameOf cfg.targetPath) oldC)
              cfg.newFilePath cfg.targetPath =
              some (fsSet
                (fsSet s.fs (cfg.backupDir ++ filenameOf cfg.targetPath) oldC)
                cfg.targetPath c') := by
            simp [fsCopy, hsrc, hnt]
          have htp : fsSet
              (fsSet s.fs (cfg.backupDir ++ filenameOf cfg.targetPath) oldC)
              cfg.targetPath c' cfg.targetPath = some c' := by
            simp [fsSet]
          simp only [hcopy, htp] at hFail ⊢
          cases hsk : env.startsOk c' with
          | true => rw [hsk] at hFail; simp at hFail
          | false =>
            have hb3 : fsSet
                (fsSet s.fs (cfg.backupDir ++ filenameOf cfg.targetPath) oldC)
                cfg.targetPath c'
                (cfg.backupDir ++ filenameOf cfg.targetPath) = some oldC := by
              simp [fsSet, hNoColl]
            have hroll := rollback_restores cfg env true
              ⟨fsSet
                (fsSet s.fs (cfg.backupDir ++ filenameOf cfg.targetPath) oldC)
                cfg.targetPath c', false, true⟩ oldC hNoColl hb3
            simpa [hst, hr] using hroll
  | false =>
    cases hrc : env.replaceCopyThrows with
    | true =>
      have hroll := rollback_restores cfg env false
        ⟨fsSet s.fs (cfg.backupDir ++ filenameOf cfg.targetPath) oldC,
          false, true⟩ oldC hNoColl hbset
      simp only [updateAndRestartService, hInst, hNew, hTgt, hBk, hr, hrc,
        if_neg hNoColl, Bool.not_true, Bool.and_false, Bool.false_eq_true,
        if_false, Bool.not_false, Bool.and_true, Bool.false_and]
      simpa [hr] using hroll
    | false =>
      simp only [updateAndRestartService, hInst, hNew, hTgt, hBk, hr, hrc,
        if_neg hNoColl, Bool.not_true, Bool.and_false, Bool.false_eq_true,
        if_false, Bool.not_false, Bool.and_true, Bool.false_and]
        at hFail ⊢
      rcases hsrc : fsSet s.fs
          (cfg.backupDir ++ filenameOf cfg.targetPath) oldC
          cfg.newFilePath with _ | c'
      · have hcopy : fsCopy
            (fsSet s.fs (cfg.backupDir ++ filenameOf cfg.targetPath) oldC)
            cfg.newFilePath cfg.targetPath = none := by
          simp [fsCopy, hsrc]
        have hroll := rollback_restores cfg env false
          ⟨fsSet s.fs (cfg.backupDir ++ filenameOf cfg.targetPath) oldC,
            false, true⟩ oldC hNoColl hbset
        simp only [hcopy]
        simpa [hr] using hroll
      · by_cases hnt : cfg.newFilePath = cfg.targetPath
        · have hcopy : fsCopy
              (fsSet s.fs (cfg.backupDir ++ filenameOf cfg.targetPath) oldC)
              cfg.newFilePath cfg.targetPath = none := by
            rw [hnt]
            cases hx : fsSet s.fs
                (cfg.backupDir ++ filenameOf cfg.targetPath) oldC
                cfg.targetPath <;> simp [fsCopy, hx]
          have hroll := rollback_restores cfg env false
            ⟨fsSet s.fs (cfg.backupDir ++ filenameOf cfg.targetPath) oldC,
              false, true⟩ oldC hNoColl hbset
          simp only [hcopy]
          simpa [hr] using hroll
        · have hcopy : fsCopy
              (fsSet s.fs (cfg.backupDir ++ filenameOf cfg.targetPath) oldC)
              cfg.newFilePath cfg.targetPath =
              some (fsSet
                (fsSet s.fs (cfg.backupDir ++ filenameOf cfg.targetPath) oldC)
                cfg.targetPath c') := by
            simp [fsCopy, hsrc, hnt]
          have htp : fsSet
              (fsSet s.fs (cfg.backupDir ++ filenameOf cfg.targetPath) oldC)
              cfg.targetPath c' cfg.targetPath = some c' := by
            simp [fsSet]
          simp only [hcopy, htp] at hFail ⊢
          cases hsk : env.startsOk c' with
          | true => rw [hsk] at hFail; simp at hFail
          | false =>
            have hb3 : fsSet
                (fsSet s.fs (cfg.backupDir ++ filenameOf cfg.targetPath) oldC)
                cfg.targetPath c'
                (cfg.backupDir ++ filenameOf cfg.targetPath) = some oldC := by
              simp [fsSet, hNoColl]
            have hroll := rollback_restores cfg env false
              ⟨fsSet
                (fsSet s.fs (cfg.backupDir ++ filenameOf cfg.targetPath) oldC)
                cfg.targetPath c', false, true⟩ oldC hNoColl hb3
            simpa [hr] using hroll

/-- C1 witness: the theorem applied to a concrete non-collision
replacement — backup directory `bdir-`, running service, old content
startable — in which the Replacing copy throws; rollback restores the old
content and the service ends running again. -/
theorem updateAndRestart_rollback_restores_witness :
    (updateAndRestartService ⟨"new.exe", "t.exe", "bdir-"⟩
      ⟨true, false, true, fun c => c == "OLD"⟩
      ⟨fun p => if p = "new.exe" then some "NEW"
        else if p = "t.exe" then some "OLD" else none, true, true⟩).1.fs
      "t.exe" = some "OLD" ∧
    (updateAndRestartService ⟨"new.exe", "t.exe", "bdir-"⟩
      ⟨true, false, true, fun c => c == "OLD"⟩
      ⟨fun p => if p = "new.exe" then some "NEW"
        else if p = "t.exe" then some "OLD" else none, true, true⟩).1.running
      = true :=
  updateAndRestart_rollback_restores ⟨"new.exe", "t.exe", "bdir-"⟩
    ⟨true, false, true, fun c => c == "OLD"⟩
    ⟨fun p => if p = "new.exe" then some "NEW"
      else if p = "t.exe" then some "OLD" else none, true, true⟩
    "OLD" "NEW" rfl (by decide) (by decide) (fun _ => rfl)
    (fun _ => by decide) (by decide) rfl (by decide)

/-- C1 counterexample: in the collision configuration (backup directory +
target filename equals the target path) the backup step succeeds — the
`.bak`-suffixed backup exists after the pass — and the start step fails,
yet rollback does not restore the pre-pass content (the target keeps the
new content) and the service, running before the pass, ends stopped. -/
theorem updateAndRestart_collision_not_restored :
    (updateAndRestartService cexCfg cexEnv cexS).2 = false ∧
    (updateAndRestartService cexCfg cexEnv cexS).1.fs "t.exe.bak"
      = some "OLD" ∧
    (updateAndRestartService cexCfg cexEnv cexS).1.fs "t.exe"
      = some "NEW" ∧
    ¬ ((updateAndRestartService cexCfg cexEnv cexS).1.fs "t.exe"
      = some "OLD") ∧
    (updateAndRestartService cexCfg cexEnv cexS).1.running = false ∧
    cexS.running = true := by
  decide
